import Mathlib

set_option maxHeartbeats 1000000

/-! Shallow embedding of the lazy-service proxy engine of `bgotink/ng-lazy`:
the `Deferred` future type from `src/utils.ts`, the `LazyServiceLoader`
registration and proxy machinery, and the differential factory from
`src/differential.ts`.  Asynchrony is modelled by an explicit per-surrogate
state machine: every synchronous operation is a pure state transformer and the
settlement of the asynchronous construction attempt is an explicit event. -/

/-- Errors thrown by the engine, tagged with their JS class name.  `Error` is the
plain `Error` class, `TypeError` is what a revoked ES proxy throws. -/
inductive JsError where
  | ServiceNotReadyError (message : String)
  | OperationNotSupportedError (message : String)
  | UnexpectedDeterminantError (message : String)
  | Error (message : String)
  | TypeError (message : String)
deriving DecidableEq

/-- Classifier used to state that a thrown error is (not) a `ServiceNotReadyError`. -/
def JsError.isServiceNotReady : JsError → Bool
  | .ServiceNotReadyError _ => true
  | _ => false

/-- Message of the `ServiceNotReadyError` thrown by `getValue`
(`differential.ts`, `getValue`, with the dev/prod distinction of `isDevMode()`). -/
def serviceNotReadyMessage (devMode : Bool) (prop : String) : String :=
  if devMode then
    "Lazy service is not ready yet\nDid you forget to mark property " ++ prop ++
      " as safe?"
  else
    "Lazy service is not ready yet"

/-- Message of the `OperationNotSupportedError` thrown by `notSupported(operation)`. -/
def notSupportedMessage (operation : String) : String :=
  "Operation " ++ operation ++ " is not supported on lazy services"

/-- Error with which `destroy` rejects the readiness `Deferred` when the surrogate
is destroyed before construction settled. -/
def destroyedBeforeReadyError : JsError :=
  .Error "The service has been destroyed before it finished creating"

/-- Error thrown by `create` when the factory did not go through one of the
creator strategies (no `lazilyCreatedMarker` on the produced value). -/
def factoryDidNotCreateError (devMode : Bool) : JsError :=
  if devMode then
    .Error
      "The factory function passed into LazyServiceLoader didn\x27t call createFromInjectable, createFromModule, or createFromEnvironment"
  else
    .Error "Factory function didn\x27t create service"

/-- TypeError thrown by an ES proxy once `revoke()` has been called, for any trap. -/
def revokedProxyError (operation : String) : JsError :=
  .TypeError
    ("Cannot perform \x27" ++ operation ++ "\x27 on a proxy that has been revoked")

deriving instance DecidableEq for Except

/-- State of a `Deferred<T>` from `src/utils.ts`.  `isResolved` is set to true by
both `resolve` and `reject`; `value` is stored only by a `resolve` call arriving
while `isResolved` is still `false`; `settled` is the settlement of the underlying
`Promise` (the first `resolve`/`reject` call wins, later calls are no-ops). -/
structure Deferred (α : Type) where
  isResolved : Bool := false
  value : Option α := none
  settled : Option (Except JsError α) := none
deriving DecidableEq

/-- The `resolve` callback of `Deferred` (`utils.ts`): store the value if not yet
settled, set `isResolved`, settle the promise if it is not settled yet. -/
def Deferred.resolve (d : Deferred α) (v : α) : Deferred α :=
  { isResolved := true
    value := if d.isResolved then d.value else some v
    settled := some (d.settled.getD (.ok v)) }

/-- The `reject` callback of `Deferred` (`utils.ts`): set `isResolved`, settle the
promise with the error if it is not settled yet.  `value` is not touched. -/
def Deferred.reject (d : Deferred α) (e : JsError) : Deferred α :=
  { isResolved := true
    value := d.value
    settled := some (d.settled.getD (.error e)) }

/-- The real service instance, modelled as a record of named numeric properties. -/
abbrev Inst := List (String × Nat)

/-- Reflect.get on the real instance: the property value, or `none` for JS `undefined`. -/
def instGet (i : Inst) (p : String) : Option Nat :=
  (i.find? (fun kv => kv.1 = p)).map (fun kv => kv.2)

/-- Reflect.has on the real instance. -/
def instHas (i : Inst) (p : String) : Bool :=
  i.any (fun kv => kv.1 = p)

/-- Reflect.set on the real instance: overwrite the property or add it. -/
def instSet (i : Inst) (p : String) (v : Nat) : Inst :=
  if instHas i p then i.map (fun kv => if kv.1 = p then (p, v) else kv)
  else i ++ [(p, v)]

/-- The `{service, destroy}` wrapper produced by a creator strategy; the `destroy`
callback is tracked by the `teardownCalls` counter of the surrogate state. -/
structure ConstructionResult where
  service : Inst
deriving DecidableEq

/-- The `LazyCreationTrigger` enum. -/
inductive LazyCreationTrigger where
  | OnInjection
  | OnAccess
  | Explicit
deriving DecidableEq

/-- The state of the mutable `getValue` closure of `#create`: it starts out
throwing `ServiceNotReadyError`, is replaced by a closure rethrowing the
construction error on failure, and by a closure returning the real instance on
success. -/
inductive GetValueFn where
  | notReady
  | failed (e : JsError)
  | ready (service : Inst)
deriving DecidableEq

/-- Settlement state of the memoized `valuePromise` created by the first call to
`getOrCreateValueAsync`: not yet created, in flight, or settled. -/
inductive Phase where
  | notStarted
  | pending
  | settledOk
  | settledErr (e : JsError)
deriving DecidableEq

/-- Which awaitable a safe-member wrapper is chained on: the memoized construction
promise (`getOrCreateValueAsync`), or `moduleAndValuePromise.then(v => v.service)`
(the `Explicit`-trigger branch of `getValueAsync` before any construction). -/
inductive AsyncSource where
  | constructionPromise (generation : Nat)
  | deferredChain
deriving DecidableEq

/-- Outcome of the awaited `serviceFactory()` call inside `create`: it threw or
rejected, it produced a value without the `lazilyCreatedMarker`, the creator
callback threw, or the creator produced the real instance. -/
inductive FactoryOutcome where
  | threw (e : JsError)
  | noMarker
  | creatorThrew (e : JsError)
  | created (service : Inst)
deriving DecidableEq

/-- The proxy traps that unconditionally throw `OperationNotSupportedError`
(`differential.ts`, the `notSupported(...)` handlers of `Proxy.revocable`). -/
inductive StructuralOp where
  | getOwnPropertyDescriptor
  | defineProperty
  | deleteProperty
  | getPrototypeOf
  | setPrototypeOf
  | isExtensible
  | preventExtensions
  | ownKeys
deriving DecidableEq

/-- Trap name of a structural operation, as passed to `notSupported`. -/
def StructuralOp.opName : StructuralOp → String
  | .getOwnPropertyDescriptor => "getOwnPropertyDescriptor"
  | .defineProperty => "defineProperty"
  | .deleteProperty => "deleteProperty"
  | .getPrototypeOf => "getPrototypeOf"
  | .setPrototypeOf => "setPrototypeOf"
  | .isExtensible => "isExtensible"
  | .preventExtensions => "preventExtensions"
  | .ownKeys => "ownKeys"

/-- Complete state of one surrogate and its registration record inside
`LazyServiceLoader.#create`:

- `deferred` is `moduleAndValuePromise`;
- `getValue` is the mutable `getValue` closure;
- `started` records whether `getOrCreateValueAsync` has been memoized
  (its first call replaced it and `getValueAsync` by `() => valuePromise`);
- `phase` is the settlement state of that memoized `valuePromise`;
- `registered` records membership in the loader's `#services` map;
- `revoked` records whether `revoke()` was called on the proxy;
- `teardownCalls` counts invocations of the construction result's `destroy` callback;
- `attempts` counts how many times `create()` (and hence the construction closure)
  was started;
- `resultsProduced` counts how many times `creator(injector)` produced a
  construction result. -/
structure SurrogateState where
  deferred : Deferred ConstructionResult := {}
  getValue : GetValueFn := .notReady
  started : Bool := false
  phase : Phase := .notStarted
  registered : Bool := true
  revoked : Bool := false
  teardownCalls : Nat := 0
  attempts : Nat := 0
  resultsProduced : Nat := 0
deriving DecidableEq

/-- Synchronous part of the first `getOrCreateValueAsync` call: start `create()`
and replace `getOrCreateValueAsync`/`getValueAsync` by `() => valuePromise`. -/
def startConstruction (s : SurrogateState) : SurrogateState :=
  if s.started then s
  else { s with started := true, phase := .pending, attempts := s.attempts + 1 }

/-- The `getOrCreateValueAsync` closure: returns (the generation number of) the
memoized construction promise, starting construction on the first call. -/
def getOrCreateValueAsync (s : SurrogateState) : Nat × SurrogateState :=
  if s.started then (s.attempts, s)
  else
    let s' := startConstruction s
    (s'.attempts, s')

/-- The `getValueAsync` closure: the memoized construction promise once
construction has begun; before that, `getOrCreateValueAsync` for the
`OnInjection`/`OnAccess` triggers and `moduleAndValuePromise.then(v => v.service)`
for the `Explicit` trigger. -/
def getValueAsync (trigger : LazyCreationTrigger) (s : SurrogateState) :
    AsyncSource × SurrogateState :=
  if s.started then (.constructionPromise s.attempts, s)
  else if trigger = .Explicit then (.deferredChain, s)
  else
    let (g, s') := getOrCreateValueAsync s
    (.constructionPromise g, s')

/-- Calling the current `getValue` closure: throw `ServiceNotReadyError` before
settlement, rethrow the captured error after a failure, return the real instance
after success. -/
def callGetValue (devMode : Bool) (gv : GetValueFn) (prop : String) :
    Except JsError Inst :=
  match gv with
  | .notReady => .error (.ServiceNotReadyError (serviceNotReadyMessage devMode prop))
  | .failed e => .error e
  | .ready i => .ok i

/-- Result of the proxy `get` trap. -/
inductive GetResult where
  | destroyHook
  | fakeCtor
  | safeWrapper (source : AsyncSource)
  | value (v : Option Nat)
deriving DecidableEq

/-- The proxy `get` trap.  A revoked proxy throws `TypeError` before any trap runs;
`ngOnDestroy` returns the destroy hook; `constructor` returns the fake constructor;
a member of the safe map returns its wrapper chained on `getValueAsync()`; any
other member goes through `getValue(prop)` and forwards with `Reflect.get`. -/
def proxyGet (devMode : Bool) (trigger : LazyCreationTrigger)
    (safeProps : String → Bool) (s : SurrogateState) (prop : String) :
    Except JsError GetResult × SurrogateState :=
  if s.revoked then (.error (revokedProxyError "get"), s)
  else if prop = "ngOnDestroy" then (.ok .destroyHook, s)
  else if prop = "constructor" then (.ok .fakeCtor, s)
  else if safeProps prop then
    let (src, s') := getValueAsync trigger s
    (.ok (.safeWrapper src), s')
  else
    match callGetValue devMode s.getValue prop with
    | .error e => (.error e, s)
    | .ok i => (.ok (.value (instGet i prop)), s)

/-- The proxy `set` trap: editing `ngOnDestroy` or a safe member throws
`OperationNotSupportedError`; otherwise the write goes through `getValue(prop)`
and forwards with `Reflect.set`, mutating the real instance. -/
def proxySet (devMode : Bool) (safeProps : String → Bool) (s : SurrogateState)
    (prop : String) (v : Nat) : Except JsError Bool × SurrogateState :=
  if s.revoked then (.error (revokedProxyError "set"), s)
  else if prop = "ngOnDestroy" then
    (.error (.OperationNotSupportedError ("ngOnDestroy" ++ " cannot be edited")), s)
  else if safeProps prop then
    (.error
      (.OperationNotSupportedError
        "Properties marked as safe properties cannot be edited"), s)
  else
    match callGetValue devMode s.getValue prop with
    | .error e => (.error e, s)
    | .ok i => (.ok true, { s with getValue := .ready (instSet i prop v) })

/-- The proxy `has` trap: `ngOnDestroy` and safe members report present; any other
member goes through `getValue(prop)` and forwards with `Reflect.has`. -/
def proxyHas (devMode : Bool) (safeProps : String → Bool) (s : SurrogateState)
    (prop : String) : Except JsError Bool × SurrogateState :=
  if s.revoked then (.error (revokedProxyError "has"), s)
  else if prop = "ngOnDestroy" then (.ok true, s)
  else if safeProps prop then (.ok true, s)
  else
    match callGetValue devMode s.getValue prop with
    | .error e => (.error e, s)
    | .ok i => (.ok (instHas i prop), s)

/-- Every structural trap of the proxy: `TypeError` once revoked, otherwise the
`notSupported(operation)` thrower installed for the trap. -/
def proxyStructural (s : SurrogateState) (op : StructuralOp) : Except JsError Unit :=
  if s.revoked then .error (revokedProxyError op.opName)
  else .error (.OperationNotSupportedError (notSupportedMessage op.opName))

/-- The `.catch` handler chained on `create()` in `getOrCreateValueAsync`: reject
`moduleAndValuePromise`, replace `getValue` by a closure rethrowing the error, and
rethrow (so the memoized `valuePromise` rejects with the same error). -/
def rejectPath (s : SurrogateState) (e : JsError) : SurrogateState :=
  { s with
    deferred := s.deferred.reject e
    getValue := .failed e
    phase := .settledErr e }

/-- The early return of `create()` when `moduleAndValuePromise.isResolved` is
already true (the surrogate was destroyed before construction settled): `create`
returns the deferred itself, so the memoized `valuePromise` adopts the deferred's
settlement, and on rejection the `.catch` handler still runs. -/
def earlyReturn (s : SurrogateState) : SurrogateState :=
  match s.deferred.settled with
  | some (.error e) => rejectPath s e
  | some (.ok _) => { s with phase := .settledOk }
  | none => s

/-- Settlement of the awaited `serviceFactory()` call inside `create()`: a throw or
a missing marker goes to the `.catch` handler; otherwise, if the deferred has
settled in the meantime, `create` returns early without producing a construction
result; otherwise `creator(injector)` produces the result, the deferred is
resolved and `getValue` starts returning the real instance. -/
def factorySettles (devMode : Bool) (s : SurrogateState) (o : FactoryOutcome) :
    SurrogateState :=
  if s.phase = .pending then
    match o with
    | .threw e => rejectPath s e
    | .noMarker => rejectPath s (factoryDidNotCreateError devMode)
    | .creatorThrew e =>
        if s.deferred.isResolved then earlyReturn s else rejectPath s e
    | .created svc =>
        if s.deferred.isResolved then earlyReturn s
        else
          { s with
            deferred := s.deferred.resolve ⟨svc⟩
            getValue := .ready svc
            phase := .settledOk
            resultsProduced := s.resultsProduced + 1 }
  else s

/-- The `destroy` closure of `#create`: a no-op if the surrogate is no longer in
the `#services` map; otherwise remove it, revoke the proxy, then either invoke the
construction result's `destroy` callback (optional chaining: only when a stored
`value` exists) or reject the deferred with the destroyed-before-ready error. -/
def destroyStep (s : SurrogateState) : SurrogateState :=
  if s.registered then
    let s' := { s with registered := false, revoked := true }
    if s'.deferred.isResolved then
      match s'.deferred.value with
      | some _ => { s' with teardownCalls := s'.teardownCalls + 1 }
      | none => s'
    else { s' with deferred := s'.deferred.reject destroyedBeforeReadyError }
  else s

/-- View of a `LazyServiceRegistration` as returned by `#getServiceRegistration`:
`isReady` and the settlement of the `whenReady` promise (`none` while pending, the
resolved value is discarded). -/
structure RegistrationView where
  isReady : Bool
  whenReady : Option (Except JsError Unit)

/-- The `dummyRegistration` used for values that are not (or no longer) in the
`#services` map: always ready, `whenReady` an immediately resolved promise. -/
def dummyRegistration : RegistrationView :=
  { isReady := true, whenReady := some (.ok ()) }

/-- `#getServiceRegistration`: the record from the `#services` map if the value is
a registered surrogate, the dummy registration otherwise.  `none` stands for a
value that was never registered. -/
def getServiceRegistration (s : Option SurrogateState) : RegistrationView :=
  match s with
  | some st =>
      if st.registered then
        { isReady := st.deferred.isResolved
          whenReady := st.deferred.settled.map (fun r => r.map (fun _ => ())) }
      else dummyRegistration
  | none => dummyRegistration

/-- `LazyServiceLoader.isReady`. -/
def loaderIsReady (s : Option SurrogateState) : Bool :=
  (getServiceRegistration s).isReady

/-- Settlement of the promise returned by `LazyServiceLoader.whenReady`: the method
awaits the registration's `whenReady`, so its promise resolves when that promise
resolves and rejects when it rejects. -/
def loaderWhenReady (s : Option SurrogateState) : Option (Except JsError Unit) :=
  (getServiceRegistration s).whenReady

/-- Events a surrogate can experience after creation: a `LazyServiceLoader.load`
call, a proxy `get`/`set`/`has`, the settlement of the construction factory, and a
call of the destroy closure (via `ngOnDestroy`, the `DestroyRef` hook or loader
teardown). -/
inductive Event where
  | load
  | access (prop : String)
  | setProp (prop : String) (v : Nat)
  | hasProp (prop : String)
  | factoryDone (o : FactoryOutcome)
  | destroy
deriving DecidableEq

/-- One step of the surrogate state machine.  `load` dispatches through
`#getServiceRegistration`, so it is a no-op for a surrogate no longer in the map. -/
def stepEvent (devMode : Bool) (trigger : LazyCreationTrigger)
    (safeProps : String → Bool) (s : SurrogateState) : Event → SurrogateState
  | .load => if s.registered then (getOrCreateValueAsync s).2 else s
  | .access prop => (proxyGet devMode trigger safeProps s prop).2
  | .setProp prop v => (proxySet devMode safeProps s prop v).2
  | .hasProp prop => (proxyHas devMode safeProps s prop).2
  | .factoryDone o => factorySettles devMode s o
  | .destroy => destroyStep s

/-- State of a freshly created surrogate: registered with an unsettled deferred;
with the `OnInjection` trigger, `#create` immediately calls
`getOrCreateValueAsync()`. -/
def initState (trigger : LazyCreationTrigger) : SurrogateState :=
  if trigger = .OnInjection then startConstruction {} else {}

/-- Run a list of events from an arbitrary state. -/
def runFrom (devMode : Bool) (trigger : LazyCreationTrigger)
    (safeProps : String → Bool) (s : SurrogateState) (evs : List Event) :
    SurrogateState :=
  evs.foldl (stepEvent devMode trigger safeProps) s

/-- Run a list of events from surrogate creation. -/
def runEvents (devMode : Bool) (trigger : LazyCreationTrigger)
    (safeProps : String → Bool) (evs : List Event) : SurrogateState :=
  runFrom devMode trigger safeProps (initState trigger) evs

/-- Lookup in the `Map` of registered implementations of the differential factory. -/
def mapGet {α : Type} (m : List (String × α)) (k : String) : Option α :=
  (m.find? (fun kv => kv.1 = k)).map (fun kv => kv.2)

/-- The selection chain of `differentialLazyFactory`:
`serviceFactories.get(determinant) ?? fallbackServiceFactory ??
unexpectedDeterminant(determinant)`. -/
def selectImplementation {α : Type} (serviceFactories : List (String × α))
    (fallbackServiceFactory : Option α) (determinant : String) :
    Except JsError α :=
  match mapGet serviceFactories determinant with
  | some f => .ok f
  | none =>
      match fallbackServiceFactory with
      | some f => .ok f
      | none =>
          .error
            (.UnexpectedDeterminantError
              ("Got determinant \"" ++ determinant ++
                "\" which has not been registered"))

/-- The construction closure built by `differentialLazyFactory`: evaluate
`determine()` once (modelled as a state transformer so the number of evaluations
is observable) and run the selection chain on the resulting determinant. -/
def differentialFactoryFn {σ α : Type} (determine : σ → String × σ)
    (serviceFactories : List (String × α)) (fallbackServiceFactory : Option α)
    (st : σ) : Except JsError α × σ :=
  let (determinant, st') := determine st
  (selectImplementation serviceFactories fallbackServiceFactory determinant, st')

/-- Reachability invariant of the surrogate state machine: it holds at creation
and is preserved by every event.  It couples the `Deferred` state, the `getValue`
closure state, the memoized construction promise and the counters. -/
structure StateInv (s : SurrogateState) : Prop where
  attempts_of_not_started : s.started = false → s.attempts = 0
  attempts_of_started : s.started = true → s.attempts = 1
  phase_of_not_started : s.started = false → s.phase = .notStarted
  teardown_of_registered : s.registered = true → s.teardownCalls = 0
  teardown_le_one : s.teardownCalls ≤ 1
  resolved_eq_settled : s.deferred.isResolved = s.deferred.settled.isSome
  value_of_unsettled : s.deferred.settled = none → s.deferred.value = none
  value_of_error : ∀ e, s.deferred.settled = some (.error e) → s.deferred.value = none
  ok_settled : ∀ r, s.deferred.settled = some (.ok r) →
    s.deferred.value = some r ∧ s.phase = .settledOk
  settled_of_live_pending : s.registered = true →
    (s.phase = .notStarted ∨ s.phase = .pending) → s.deferred.settled = none
  getValue_of_pending : (s.phase = .notStarted ∨ s.phase = .pending) →
    s.getValue = .notReady
  getValue_of_err : ∀ e, s.phase = .settledErr e →
    s.getValue = .failed e ∧ ∃ x, s.deferred.settled = some (.error x)
  getValue_of_ok : s.phase = .settledOk →
    (∃ i, s.getValue = .ready i) ∧ ∃ r, s.deferred.settled = some (.ok r)
  results_of_ok : s.resultsProduced ≠ 0 → ∃ r, s.deferred.settled = some (.ok r)
  results_le_one : s.resultsProduced ≤ 1

/-- The invariant holds for a freshly created surrogate, for every trigger. -/
theorem inv_initState (tr : LazyCreationTrigger) : StateInv (initState tr) := by
  cases tr <;> constructor <;> intros <;> simp_all [initState, startConstruction]

/-- Starting construction preserves the invariant. -/
theorem inv_startConstruction (h : StateInv s) : StateInv (startConstruction s) := by
  unfold startConstruction
  split
  · exact h
  · rename_i hs
    have hs' : s.started = false := by revert hs; cases s.started <;> simp
    refine ⟨?_, ?_, ?_, ?_, ?_, ?_, ?_, ?_, ?_, ?_, ?_, ?_, ?_, ?_, ?_⟩
    · intro hh; simp at hh
    · intro _; simp [h.attempts_of_not_started hs']
    · intro hh; simp at hh
    · exact h.teardown_of_registered
    · exact h.teardown_le_one
    · exact h.resolved_eq_settled
    · exact h.value_of_unsettled
    · exact h.value_of_error
    · intro r hr
      exact ⟨(h.ok_settled r hr).1, absurd ((h.ok_settled r hr).2).symm (by
        simp [h.phase_of_not_started hs'])⟩
    · intro hreg _
      exact h.settled_of_live_pending hreg (Or.inl (h.phase_of_not_started hs'))
    · intro _
      exact h.getValue_of_pending (Or.inl (h.phase_of_not_started hs'))
    · intro e he; simp at he
    · intro hok; simp at hok
    · exact h.results_of_ok
    · exact h.results_le_one

/-- The state component of `getOrCreateValueAsync` is exactly `startConstruction`. -/
theorem getOrCreateValueAsync_snd (s : SurrogateState) :
    (getOrCreateValueAsync s).2 = startConstruction s := by
  unfold getOrCreateValueAsync startConstruction
  split <;> simp_all

/-- The state component of `getValueAsync` is the state itself or `startConstruction`. -/
theorem getValueAsync_snd (tr : LazyCreationTrigger) (s : SurrogateState) :
    (getValueAsync tr s).2 = s ∨ (getValueAsync tr s).2 = startConstruction s := by
  unfold getValueAsync
  split
  · exact Or.inl rfl
  · split
    · exact Or.inl rfl
    · exact Or.inr (by rw [getOrCreateValueAsync_snd])

/-- The state component of the `get` trap is the state itself or `startConstruction`. -/
theorem proxyGet_snd (dm : Bool) (tr : LazyCreationTrigger) (sp : String → Bool)
    (s : SurrogateState) (p : String) :
    (proxyGet dm tr sp s p).2 = s ∨ (proxyGet dm tr sp s p).2 = startConstruction s := by
  unfold proxyGet
  split
  · exact Or.inl rfl
  · split
    · exact Or.inl rfl
    · split
      · exact Or.inl rfl
      · split
        · exact getValueAsync_snd tr s
        · split <;> exact Or.inl rfl

/-- A successful `getValue` call means the closure is in the `ready` state. -/
theorem callGetValue_ok (dm : Bool) (gv : GetValueFn) (p : String) (i : Inst)
    (h : callGetValue dm gv p = .ok i) : gv = .ready i := by
  cases gv <;> simp_all [callGetValue]

/-- The state component of the `has` trap never changes. -/
theorem proxyHas_snd (dm : Bool) (sp : String → Bool) (s : SurrogateState)
    (p : String) : (proxyHas dm sp s p).2 = s := by
  unfold proxyHas
  split
  · rfl
  · split
    · rfl
    · split
      · rfl
      · split <;> rfl

/-- The `set` trap preserves the invariant (it can only replace the `ready`
instance by the mutated `ready` instance). -/
theorem inv_proxySet (dm : Bool) (sp : String → Bool) (p : String) (v : Nat)
    (h : StateInv s) : StateInv ((proxySet dm sp s p v).2) := by
  unfold proxySet
  split
  · exact h
  · split
    · exact h
    · split
      · exact h
      · split
        · exact h
        · rename_i i hcall
          have hgv : s.getValue = .ready i := callGetValue_ok dm s.getValue p i hcall
          refine ⟨h.attempts_of_not_started, h.attempts_of_started,
            h.phase_of_not_started, h.teardown_of_registered, h.teardown_le_one,
            h.resolved_eq_settled, h.value_of_unsettled, h.value_of_error,
            ?_, h.settled_of_live_pending, ?_, ?_, ?_, h.results_of_ok,
            h.results_le_one⟩
          · intro r hr
            exact ⟨(h.ok_settled r hr).1, (h.ok_settled r hr).2⟩
          · intro hp
            have := h.getValue_of_pending hp
            rw [hgv] at this
            exact absurd this (by simp)
          · intro e he
            have := (h.getValue_of_err e he).1
            rw [hgv] at this
            exact absurd this (by simp)
          · intro hok
            exact ⟨⟨instSet i p v, rfl⟩, (h.getValue_of_ok (by simpa using hok)).2⟩

/-- The `.catch` path of a failed construction attempt preserves the invariant. -/
theorem inv_rejectPath (e : JsError) (h : StateInv s) (hph : s.phase = .pending) :
    StateInv (rejectPath s e) := by
  have hstarted : s.started = true := by
    cases hst : s.started
    · exact absurd (h.phase_of_not_started hst) (by rw [hph]; simp)
    · rfl
  have hnotok : ∀ r, s.deferred.settled ≠ some (.ok r) := by
    intro r hr
    exact absurd (h.ok_settled r hr).2 (by rw [hph]; simp)
  have hres0 : s.resultsProduced = 0 := by
    by_contra hr
    rcases h.results_of_ok hr with ⟨r, hrr⟩
    exact hnotok r hrr
  have hval : s.deferred.value = none := by
    cases hs : s.deferred.settled with
    | none => exact h.value_of_unsettled hs
    | some x =>
      cases x with
      | ok r => exact absurd hs (hnotok r)
      | error e' => exact h.value_of_error e' hs
  refine ⟨?_, ?_, ?_, ?_, ?_, ?_, ?_, ?_, ?_, ?_, ?_, ?_, ?_, ?_, ?_⟩
  · intro hh; simp [rejectPath, hstarted] at hh
  · intro _; simpa [rejectPath] using h.attempts_of_started hstarted
  · intro hh; simp [rejectPath, hstarted] at hh
  · intro hreg
    simp only [rejectPath] at hreg ⊢
    exact h.teardown_of_registered hreg
  · simpa [rejectPath] using h.teardown_le_one
  · simp [rejectPath, Deferred.reject]
  · intro hh; simp [rejectPath, Deferred.reject] at hh
  · intro e' _
    simpa [rejectPath, Deferred.reject] using hval
  · intro r hr
    simp only [rejectPath, Deferred.reject] at hr
    cases hs : s.deferred.settled with
    | none => rw [hs] at hr; simp [Option.getD] at hr
    | some x =>
      cases x with
      | ok r' => exact absurd hs (hnotok r')
      | error e' => rw [hs] at hr; simp [Option.getD] at hr
  · intro _ hp; simp [rejectPath] at hp
  · intro hp; simp [rejectPath] at hp
  · intro e' he'
    simp only [rejectPath] at he' ⊢
    have he : e' = e := by
      have : Phase.settledErr e = Phase.settledErr e' := he'
      cases this; rfl
    subst he
    refine ⟨rfl, ?_⟩
    cases hs : s.deferred.settled with
    | none => exact ⟨e', by simp [Deferred.reject, hs, Option.getD]⟩
    | some x =>
      cases x with
      | ok r' => exact absurd hs (hnotok r')
      | error e'' => exact ⟨e'', by simp [Deferred.reject, hs, Option.getD]⟩
  · intro hok; simp [rejectPath] at hok
  · intro hr; simp [rejectPath, hres0] at hr
  · simp [rejectPath, hres0]

/-- The early return of `create()` (deferred already settled) preserves the
invariant. -/
theorem inv_earlyReturn (h : StateInv s) (hph : s.phase = .pending)
    (hres : s.deferred.isResolved = true) : StateInv (earlyReturn s) := by
  unfold earlyReturn
  cases hs : s.deferred.settled with
  | none =>
      have := h.resolved_eq_settled
      rw [hres, hs] at this
      simp at this
  | some x =>
      cases x with
      | ok r => exact absurd (h.ok_settled r hs).2 (by rw [hph]; simp)
      | error e => exact inv_rejectPath e h hph

/-- Settlement of the construction factory preserves the invariant. -/
theorem inv_factorySettles (dm : Bool) (o : FactoryOutcome) (h : StateInv s) :
    StateInv (factorySettles dm s o) := by
  by_cases hph : s.phase = Phase.pending
  · cases o with
    | threw e =>
        rw [show factorySettles dm s (.threw e) = rejectPath s e by
          simp [factorySettles, hph]]
        exact inv_rejectPath e h hph
    | noMarker =>
        rw [show factorySettles dm s .noMarker =
            rejectPath s (factoryDidNotCreateError dm) by simp [factorySettles, hph]]
        exact inv_rejectPath _ h hph
    | creatorThrew e =>
        by_cases hres : s.deferred.isResolved = true
        · rw [show factorySettles dm s (.creatorThrew e) = earlyReturn s by
            simp [factorySettles, hph, hres]]
          exact inv_earlyReturn h hph hres
        · rw [show factorySettles dm s (.creatorThrew e) = rejectPath s e by
            simp [factorySettles, hph, hres]]
          exact inv_rejectPath e h hph
    | created svc =>
        by_cases hres : s.deferred.isResolved = true
        · rw [show factorySettles dm s (.created svc) = earlyReturn s by
            simp [factorySettles, hph, hres]]
          exact inv_earlyReturn h hph hres
        · rw [show factorySettles dm s (.created svc) =
              { s with
                deferred := s.deferred.resolve ⟨svc⟩
                getValue := .ready svc
                phase := .settledOk
                resultsProduced := s.resultsProduced + 1 } by
            simp [factorySettles, hph, hres]]
          have hres' : s.deferred.isResolved = false := by
            revert hres; cases s.deferred.isResolved <;> simp
          have hsettled : s.deferred.settled = none := by
            have hc := h.resolved_eq_settled
            rw [hres'] at hc
            cases hs : s.deferred.settled with
            | none => rfl
            | some x => rw [hs] at hc; simp at hc
          have hstarted : s.started = true := by
            cases hst : s.started
            · exact absurd (h.phase_of_not_started hst) (by rw [hph]; simp)
            · rfl
          have hres0 : s.resultsProduced = 0 := by
            by_contra hr
            rcases h.results_of_ok hr with ⟨r, hrr⟩
            rw [hsettled] at hrr
            exact absurd hrr (by simp)
          refine ⟨?_, ?_, ?_, ?_, ?_, ?_, ?_, ?_, ?_, ?_, ?_, ?_, ?_, ?_, ?_⟩
          · intro hh; simp [hstarted] at hh
          · intro _; simpa using h.attempts_of_started hstarted
          · intro hh; simp [hstarted] at hh
          · intro hreg
            simp only at hreg ⊢
            exact h.teardown_of_registered hreg
          · simpa using h.teardown_le_one
          · simp [Deferred.resolve]
          · intro hh; simp [Deferred.resolve] at hh
          · intro e' he'
            simp [Deferred.resolve, hsettled, Option.getD] at he'
          · intro r hr
            simp only [Deferred.resolve, hsettled, Option.getD, hres'] at hr ⊢
            simp at hr
            subst hr
            simp
          · intro _ hp; simp at hp
          · intro hp
            rcases hp with hp | hp <;> simp at hp
          · intro e' he'; simp at he'
          · intro _
            exact ⟨⟨svc, rfl⟩,
              ⟨⟨svc⟩, by simp [Deferred.resolve, hsettled, Option.getD]⟩⟩
          · intro _
            exact ⟨⟨svc⟩, by simp [Deferred.resolve, hsettled, Option.getD]⟩
          · simp [hres0]
  · simpa [factorySettles, hph] using h

/-- The destroy closure preserves the invariant. -/
theorem inv_destroyStep (h : StateInv s) : StateInv (destroyStep s) := by
  by_cases hreg : s.registered = true
  · have hteard0 := h.teardown_of_registered hreg
    by_cases hres : s.deferred.isResolved = true
    · cases hval : s.deferred.value with
      | some v =>
          rw [show destroyStep s =
              { s with
                registered := false
                revoked := true
                teardownCalls := s.teardownCalls + 1 } by
            simp [destroyStep, hreg, hres, hval]]
          refine ⟨?_, ?_, ?_, ?_, ?_, ?_, ?_, ?_, ?_, ?_, ?_, ?_, ?_, ?_, ?_⟩
          · intro hh; exact h.attempts_of_not_started (by simpa using hh)
          · intro hh; exact h.attempts_of_started (by simpa using hh)
          · intro hh; exact h.phase_of_not_started (by simpa using hh)
          · intro hh; simp at hh
          · simp [hteard0]
          · exact h.resolved_eq_settled
          · exact h.value_of_unsettled
          · exact h.value_of_error
          · exact h.ok_settled
          · intro hh; simp at hh
          · exact h.getValue_of_pending
          · exact h.getValue_of_err
          · exact h.getValue_of_ok
          · exact h.results_of_ok
          · exact h.results_le_one
      | none =>
          rw [show destroyStep s = { s with registered := false, revoked := true } by
            simp [destroyStep, hreg, hres, hval]]
          refine ⟨?_, ?_, ?_, ?_, ?_, ?_, ?_, ?_, ?_, ?_, ?_, ?_, ?_, ?_, ?_⟩
          · intro hh; exact h.attempts_of_not_started (by simpa using hh)
          · intro hh; exact h.attempts_of_started (by simpa using hh)
          · intro hh; exact h.phase_of_not_started (by simpa using hh)
          · intro hh; simp at hh
          · exact h.teardown_le_one
          · exact h.resolved_eq_settled
          · exact h.value_of_unsettled
          · exact h.value_of_error
          · exact h.ok_settled
          · intro hh; simp at hh
          · exact h.getValue_of_pending
          · exact h.getValue_of_err
          · exact h.getValue_of_ok
          · exact h.results_of_ok
          · exact h.results_le_one
    · have hres' : s.deferred.isResolved = false := by
        revert hres; cases s.deferred.isResolved <;> simp
      have hsettled : s.deferred.settled = none := by
        have hc := h.resolved_eq_settled
        rw [hres'] at hc
        cases hs : s.deferred.settled with
        | none => rfl
        | some x => rw [hs] at hc; simp at hc
      have hvalue : s.deferred.value = none := h.value_of_unsettled hsettled
      have hres0 : s.resultsProduced = 0 := by
        by_contra hr
        rcases h.results_of_ok hr with ⟨r, hrr⟩
        rw [hsettled] at hrr
        exact absurd hrr (by simp)
      rw [show destroyStep s =
          { s with
            registered := false
            revoked := true
            deferred := s.deferred.reject destroyedBeforeReadyError } by
        simp [destroyStep, hreg, hres]]
      refine ⟨?_, ?_, ?_, ?_, ?_, ?_, ?_, ?_, ?_, ?_, ?_, ?_, ?_, ?_, ?_⟩
      · intro hh; exact h.attempts_of_not_started (by simpa using hh)
      · intro hh; exact h.attempts_of_started (by simpa using hh)
      · intro hh; exact h.phase_of_not_started (by simpa using hh)
      · intro hh; simp at hh
      · exact h.teardown_le_one
      · simp [Deferred.reject]
      · intro hh; simp [Deferred.reject] at hh
      · intro e' _; simpa [Deferred.reject] using hvalue
      · intro r hr
        simp [Deferred.reject, hsettled, Option.getD] at hr
      · intro hh; simp at hh
      · exact h.getValue_of_pending
      · intro e' he'
        rcases (h.getValue_of_err e' he').2 with ⟨x, hx⟩
        rw [hsettled] at hx
        exact absurd hx (by simp)
      · intro hok
        rcases (h.getValue_of_ok hok).2 with ⟨r, hr⟩
        rw [hsettled] at hr
        exact absurd hr (by simp)
      · intro hr; simp [hres0] at hr
      · simp [hres0]
  · rw [show destroyStep s = s by simp [destroyStep, hreg]]
    exact h

/-- Every event of the surrogate state machine preserves the invariant. -/
theorem inv_stepEvent (dm : Bool) (tr : LazyCreationTrigger) (sp : String → Bool)
    (e : Event) (h : StateInv s) : StateInv (stepEvent dm tr sp s e) := by
  cases e with
  | load =>
      simp only [stepEvent]
      split
      · rw [getOrCreateValueAsync_snd]
        exact inv_startConstruction h
      · exact h
  | access p =>
      simp only [stepEvent]
      rcases proxyGet_snd dm tr sp s p with hp | hp <;> rw [hp]
      · exact h
      · exact inv_startConstruction h
  | setProp p v =>
      exact inv_proxySet dm sp p v h
  | hasProp p =>
      simp only [stepEvent]
      rw [proxyHas_snd]
      exact h
  | factoryDone o =>
      exact inv_factorySettles dm o h
  | destroy =>
      exact inv_destroyStep h

/-- Running any event list preserves the invariant. -/
theorem inv_runFrom (dm : Bool) (tr : LazyCreationTrigger) (sp : String → Bool)
    (evs : List Event) (h : StateInv s) : StateInv (runFrom dm tr sp s evs) := by
  induction evs generalizing s with
  | nil => exact h
  | cons e evs ih => exact ih (inv_stepEvent dm tr sp e h)

/-- Every state reachable from surrogate creation satisfies the invariant. -/
theorem inv_runEvents (dm : Bool) (tr : LazyCreationTrigger) (sp : String → Bool)
    (evs : List Event) : StateInv (runEvents dm tr sp evs) :=
  inv_runFrom dm tr sp evs (inv_initState tr)

/-- Starting construction leaves registration, deferred and counters untouched. -/
theorem startConstruction_fields (s : SurrogateState) :
    (startConstruction s).registered = s.registered ∧
    (startConstruction s).deferred = s.deferred ∧
    (startConstruction s).teardownCalls = s.teardownCalls ∧
    (startConstruction s).resultsProduced = s.resultsProduced := by
  unfold startConstruction
  split <;> simp

/-- The `set` trap leaves registration, deferred and counters untouched. -/
theorem proxySet_fields (dm : Bool) (sp : String → Bool) (s : SurrogateState)
    (p : String) (v : Nat) :
    ((proxySet dm sp s p v).2).registered = s.registered ∧
    ((proxySet dm sp s p v).2).deferred = s.deferred ∧
    ((proxySet dm sp s p v).2).teardownCalls = s.teardownCalls ∧
    ((proxySet dm sp s p v).2).resultsProduced = s.resultsProduced := by
  unfold proxySet
  split
  · simp
  · split
    · simp
    · split
      · simp
      · split <;> simp

/-- After a destroy that settled the deferred, no event can re-register the
surrogate, change the deferred settlement, invoke the teardown callback or
produce a construction result. -/
theorem frozen_stepEvent (dm : Bool) (tr : LazyCreationTrigger)
    (sp : String → Bool) (e : Event) (x : Except JsError ConstructionResult)
    (h1 : s.registered = false) (h2 : s.deferred.isResolved = true)
    (h3 : s.deferred.settled = some x) :
    (stepEvent dm tr sp s e).registered = false ∧
    (stepEvent dm tr sp s e).deferred.isResolved = true ∧
    (stepEvent dm tr sp s e).deferred.settled = some x ∧
    (stepEvent dm tr sp s e).teardownCalls = s.teardownCalls ∧
    (stepEvent dm tr sp s e).resultsProduced = s.resultsProduced := by
  cases e with
  | load =>
      simp only [stepEvent, h1]
      exact ⟨h1, h2, h3, rfl, rfl⟩
  | access p =>
      simp only [stepEvent]
      rcases proxyGet_snd dm tr sp s p with hp | hp <;> rw [hp]
      · exact ⟨h1, h2, h3, rfl, rfl⟩
      · obtain ⟨f1, f2, f3, f4⟩ := startConstruction_fields s
        rw [f1, f2, f3, f4]
        exact ⟨h1, h2, h3, rfl, rfl⟩
  | setProp p v =>
      obtain ⟨f1, f2, f3, f4⟩ := proxySet_fields dm sp s p v
      simp only [stepEvent]
      rw [f1, f2, f3, f4]
      exact ⟨h1, h2, h3, rfl, rfl⟩
  | hasProp p =>
      simp only [stepEvent]
      rw [proxyHas_snd]
      exact ⟨h1, h2, h3, rfl, rfl⟩
  | factoryDone o =>
      simp only [stepEvent]
      by_cases hph : s.phase = Phase.pending
      · cases o with
        | threw e =>
            rw [show factorySettles dm s (.threw e) = rejectPath s e by
              simp [factorySettles, hph]]
            exact ⟨h1, by simp [rejectPath, Deferred.reject],
              by simp [rejectPath, Deferred.reject, h3], by simp [rejectPath],
              by simp [rejectPath]⟩
        | noMarker =>
            rw [show factorySettles dm s .noMarker =
                rejectPath s (factoryDidNotCreateError dm) by
              simp [factorySettles, hph]]
            exact ⟨h1, by simp [rejectPath, Deferred.reject],
              by simp [rejectPath, Deferred.reject, h3], by simp [rejectPath],
              by simp [rejectPath]⟩
        | creatorThrew e =>
            rw [show factorySettles dm s (.creatorThrew e) = earlyReturn s by
              simp [factorySettles, hph, h2]]
            cases x with
            | error e' =>
                rw [show earlyReturn s = rejectPath s e' by simp [earlyReturn, h3]]
                exact ⟨h1, by simp [rejectPath, Deferred.reject],
                  by simp [rejectPath, Deferred.reject, h3], by simp [rejectPath],
                  by simp [rejectPath]⟩
            | ok r =>
                rw [show earlyReturn s = { s with phase := .settledOk } by
                  simp [earlyReturn, h3]]
                exact ⟨h1, h2, h3, rfl, rfl⟩
        | created svc =>
            rw [show factorySettles dm s (.created svc) = earlyReturn s by
              simp [factorySettles, hph, h2]]
            cases x with
            | error e' =>
                rw [show earlyReturn s = rejectPath s e' by simp [earlyReturn, h3]]
                exact ⟨h1, by simp [rejectPath, Deferred.reject],
                  by simp [rejectPath, Deferred.reject, h3], by simp [rejectPath],
                  by simp [rejectPath]⟩
            | ok r =>
                rw [show earlyReturn s = { s with phase := .settledOk } by
                  simp [earlyReturn, h3]]
                exact ⟨h1, h2, h3, rfl, rfl⟩
      · rw [show factorySettles dm s o = s by simp [factorySettles, hph]]
        exact ⟨h1, h2, h3, rfl, rfl⟩
  | destroy =>
      simp only [stepEvent]
      rw [show destroyStep s = s by simp [destroyStep, h1]]
      exact ⟨h1, h2, h3, rfl, rfl⟩

/-- Trace version of `frozen_stepEvent`. -/
theorem frozen_runFrom (dm : Bool) (tr : LazyCreationTrigger)
    (sp : String → Bool) (evs : List Event) (x : Except JsError ConstructionResult)
    (h1 : s.registered = false) (h2 : s.deferred.isResolved = true)
    (h3 : s.deferred.settled = some x) :
    (runFrom dm tr sp s evs).registered = false ∧
    (runFrom dm tr sp s evs).deferred.isResolved = true ∧
    (runFrom dm tr sp s evs).deferred.settled = some x ∧
    (runFrom dm tr sp s evs).teardownCalls = s.teardownCalls ∧
    (runFrom dm tr sp s evs).resultsProduced = s.resultsProduced := by
  induction evs generalizing s with
  | nil => exact ⟨h1, h2, h3, rfl, rfl⟩
  | cons e evs ih =>
      obtain ⟨g1, g2, g3, g4, g5⟩ := frozen_stepEvent dm tr sp e x h1 h2 h3
      obtain ⟨k1, k2, k3, k4, k5⟩ := ih g1 g2 g3
      exact ⟨k1, k2, k3, k4.trans g4, k5.trans g5⟩

/-- A destroy on a surrogate that is no longer registered is a no-op. -/
theorem destroyStep_of_unregistered (h : s.registered = false) :
    destroyStep s = s := by
  simp [destroyStep, h]

/-- Destroying a registered surrogate removes it from the registry and revokes
its proxy, in every deferred state. -/
theorem destroyStep_flags (hreg : s.registered = true) :
    (destroyStep s).registered = false ∧ (destroyStep s).revoked = true := by
  by_cases hres : s.deferred.isResolved = true
  · cases hval : s.deferred.value with
    | some v =>
        rw [show destroyStep s =
            { s with
              registered := false
              revoked := true
              teardownCalls := s.teardownCalls + 1 } by
          simp [destroyStep, hreg, hres, hval]]
        simp
    | none =>
        rw [show destroyStep s = { s with registered := false, revoked := true } by
          simp [destroyStep, hreg, hres, hval]]
        simp
  · rw [show destroyStep s =
        { s with
          registered := false
          revoked := true
          deferred := s.deferred.reject destroyedBeforeReadyError } by
      simp [destroyStep, hreg, hres]]
    simp

/-- Settlement of the factory never changes the attempt counter. -/
theorem factorySettles_attempts (dm : Bool) (o : FactoryOutcome) (s : SurrogateState) :
    (factorySettles dm s o).attempts = s.attempts := by
  unfold factorySettles
  split
  · split
    · simp [rejectPath]
    · simp [rejectPath]
    · split
      · unfold earlyReturn
        split <;> simp [rejectPath]
      · simp [rejectPath]
    · split
      · unfold earlyReturn
        split <;> simp [rejectPath]
      · simp
  · rfl

/-- Destroying never changes the attempt counter. -/
theorem destroyStep_attempts (s : SurrogateState) :
    (destroyStep s).attempts = s.attempts := by
  by_cases hreg : s.registered = true
  · by_cases hres : s.deferred.isResolved = true
    · cases hval : s.deferred.value with
      | some v =>
          rw [show destroyStep s =
              { s with
                registered := false
                revoked := true
                teardownCalls := s.teardownCalls + 1 } by
            simp [destroyStep, hreg, hres, hval]]
      | none =>
          rw [show destroyStep s = { s with registered := false, revoked := true } by
            simp [destroyStep, hreg, hres, hval]]
    · rw [show destroyStep s =
          { s with
            registered := false
            revoked := true
            deferred := s.deferred.reject destroyedBeforeReadyError } by
        simp [destroyStep, hreg, hres]]
  · rw [destroyStep_of_unregistered (by revert hreg; cases s.registered <;> simp)]

/-- The `set` trap never changes the attempt counter. -/
theorem proxySet_attempts (dm : Bool) (sp : String → Bool) (s : SurrogateState)
    (p : String) (v : Nat) : ((proxySet dm sp s p v).2).attempts = s.attempts := by
  unfold proxySet
  split
  · rfl
  · split
    · rfl
    · split
      · rfl
      · split <;> simp

/-- Before construction has begun, a proxy `get` under the `Explicit` trigger
leaves the state untouched. -/
theorem proxyGet_snd_explicit (dm : Bool) (sp : String → Bool) (s : SurrogateState)
    (p : String) (hst : s.started = false) :
    (proxyGet dm .Explicit sp s p).2 = s := by
  unfold proxyGet
  split
  · rfl
  · split
    · rfl
    · split
      · rfl
      · split
        · simp [getValueAsync, hst]
        · split <;> rfl

/-- A freshly created surrogate with the `Explicit` trigger is the default state. -/
theorem initState_explicit : initState .Explicit = {} := by
  simp [initState]

/-- Under the `Explicit` trigger, every event other than `load` and `destroy`
leaves a freshly created surrogate unchanged. -/
theorem stepEvent_explicit_inert (dm : Bool) (sp : String → Bool) (e : Event)
    (h1 : e ≠ Event.load) (h2 : e ≠ Event.destroy) :
    stepEvent dm .Explicit sp (initState .Explicit) e = initState .Explicit := by
  rw [initState_explicit]
  cases e with
  | load => exact absurd rfl h1
  | destroy => exact absurd rfl h2
  | access p =>
      simp only [stepEvent]
      exact proxyGet_snd_explicit dm sp _ p rfl
  | setProp p v =>
      simp only [stepEvent]
      unfold proxySet
      split
      · rfl
      · split
        · rfl
        · split
          · rfl
          · split
            · rfl
            · rename_i i hcall
              have : GetValueFn.notReady = GetValueFn.ready i :=
                callGetValue_ok dm _ p i hcall
              exact absurd this (by simp)
  | hasProp p =>
      simp only [stepEvent]
      rw [proxyHas_snd]
  | factoryDone o =>
      simp only [stepEvent]
      rw [show factorySettles dm {} o = {} by simp [factorySettles]]

/-- Under the `Explicit` trigger, a trace without `load` and `destroy` leaves the
surrogate in its initial state. -/
theorem runEvents_explicit_inert (dm : Bool) (sp : String → Bool)
    (evs : List Event) (h : ∀ e ∈ evs, e ≠ Event.load ∧ e ≠ Event.destroy) :
    runEvents dm .Explicit sp evs = initState .Explicit := by
  unfold runEvents
  induction evs with
  | nil => rfl
  | cons e t ih =>
      have he := h e (List.mem_cons_self e t)
      show runFrom dm .Explicit sp
        (stepEvent dm .Explicit sp (initState .Explicit) e) t = initState .Explicit
      rw [stepEvent_explicit_inert dm sp e he.1 he.2]
      exact ih (fun x hx => h x (List.mem_cons_of_mem e hx))

/-- C1, counterexample: a surrogate whose construction settled with a failure is
still registered and its deferred has settled, yet `whenReady` rejects with the
construction error instead of resolving — the failure is not folded into
completion. -/
theorem whenReady_rejects_on_failed_construction :
    (runEvents false .Explicit (fun _ => false)
        [Event.load, Event.factoryDone (.threw (.Error "boom"))]).registered =
      true ∧
    (runEvents false .Explicit (fun _ => false)
        [Event.load, Event.factoryDone (.threw (.Error "boom"))]).deferred.isResolved =
      true ∧
    loaderWhenReady (some (runEvents false .Explicit (fun _ => false)
        [Event.load, Event.factoryDone (.threw (.Error "boom"))])) =
      some (.error (.Error "boom")) ∧
    loaderWhenReady (some (runEvents false .Explicit (fun _ => false)
        [Event.load, Event.factoryDone (.threw (.Error "boom"))])) ≠
      some (.ok ()) := by
  decide

/-- C1 (amended): for a registered surrogate, the promise returned by
`LazyServiceLoader.whenReady` settles together with the record's deferred —
it resolves once construction succeeded, rejects (with the recorded failure)
once construction failed or the surrogate was destroyed before ready, and stays
pending while construction has not settled; for values not registered as
surrogates it resolves immediately. -/
theorem whenReady_tracks_deferred_settlement (dm : Bool)
    (tr : LazyCreationTrigger) (sp : String → Bool) (evs : List Event)
    (s : SurrogateState) (hs : runEvents dm tr sp evs = s) :
    (s.registered = true →
      (s.phase = .settledOk → loaderWhenReady (some s) = some (.ok ())) ∧
      (∀ e, s.phase = .settledErr e →
        ∃ x, loaderWhenReady (some s) = some (.error x)) ∧
      ((s.phase = .notStarted ∨ s.phase = .pending) →
        loaderWhenReady (some s) = none)) ∧
    (s.registered = false → loaderWhenReady (some s) = some (.ok ())) ∧
    loaderWhenReady none = some (.ok ()) := by
  subst hs
  have h := inv_runEvents dm tr sp evs
  refine ⟨fun hreg => ⟨?_, ?_, ?_⟩, fun hreg => ?_, rfl⟩
  · intro hok
    rcases (h.getValue_of_ok hok).2 with ⟨r, hr⟩
    simp [loaderWhenReady, getServiceRegistration, hreg, hr, Except.map]
  · intro e he
    rcases (h.getValue_of_err e he).2 with ⟨x, hx⟩
    exact ⟨x, by simp [loaderWhenReady, getServiceRegistration, hreg, hx, Except.map]⟩
  · intro hp
    simp [loaderWhenReady, getServiceRegistration, hreg,
      h.settled_of_live_pending hreg hp]
  · simp [loaderWhenReady, getServiceRegistration, hreg, dummyRegistration]

/-- Witness for C1 (amended): on a concrete failed construction, `whenReady`
rejects with some error. -/
theorem whenReady_tracks_deferred_settlement_witness :
    ∃ x, loaderWhenReady (some (runEvents false .Explicit (fun _ => false)
        [Event.load, Event.factoryDone (.threw (.Error "boom"))])) =
      some (.error x) :=
  ((whenReady_tracks_deferred_settlement false .Explicit (fun _ => false)
      [Event.load, Event.factoryDone (.threw (.Error "boom"))] _ rfl).1
    (by decide)).2.1 (.Error "boom") (by decide)

/-- C2: for a registered surrogate, `LazyServiceLoader.isReady` is true exactly
when the construction outcome has settled — after a success and equally after a
failure — and false while construction has not begun or is in flight; for values
not (or no longer) registered it is true unconditionally. -/
theorem isReady_iff_outcome_settled (dm : Bool) (tr : LazyCreationTrigger)
    (sp : String → Bool) (evs : List Event) (s : SurrogateState)
    (hs : runEvents dm tr sp evs = s) :
    (s.registered = true →
      (loaderIsReady (some s) = true ↔
        (s.phase = .settledOk ∨ ∃ e, s.phase = .settledErr e))) ∧
    (s.registered = false → loaderIsReady (some s) = true) ∧
    loaderIsReady none = true := by
  subst hs
  have h := inv_runEvents dm tr sp evs
  refine ⟨fun hreg => ?_, fun hreg => ?_, rfl⟩
  · rw [show loaderIsReady (some (runEvents dm tr sp evs)) =
        (runEvents dm tr sp evs).deferred.isResolved by
      simp [loaderIsReady, getServiceRegistration, hreg]]
    constructor
    · intro hir
      cases hphase : (runEvents dm tr sp evs).phase with
      | notStarted =>
          have := h.settled_of_live_pending hreg (Or.inl hphase)
          rw [h.resolved_eq_settled, this] at hir
          simp at hir
      | pending =>
          have := h.settled_of_live_pending hreg (Or.inr hphase)
          rw [h.resolved_eq_settled, this] at hir
          simp at hir
      | settledOk => exact Or.inl rfl
      | settledErr e => exact Or.inr ⟨e, rfl⟩
    · intro hsettled
      rcases hsettled with hok | ⟨e, he⟩
      · rcases (h.getValue_of_ok hok).2 with ⟨r, hr⟩
        rw [h.resolved_eq_settled, hr]
        rfl
      · rcases (h.getValue_of_err e he).2 with ⟨x, hx⟩
        rw [h.resolved_eq_settled, hx]
        rfl
  · simp [loaderIsReady, getServiceRegistration, hreg, dummyRegistration]

/-- Witness for C2: a surrogate whose construction failed reports ready. -/
theorem isReady_iff_outcome_settled_witness :
    loaderIsReady (some (runEvents false .OnInjection (fun _ => false)
      [Event.factoryDone (.threw (.Error "boom"))])) = true :=
  ((isReady_iff_outcome_settled false .OnInjection (fun _ => false)
      [Event.factoryDone (.threw (.Error "boom"))] _ rfl).1 (by decide)).mpr
    (Or.inr ⟨.Error "boom", by decide⟩)

/-- C3: regardless of trigger, at most one construction attempt ever starts, and
once construction has begun, `getOrCreateValueAsync` returns the memoized promise
without changing the state and no further event can raise the attempt counter —
triggering calls (load, safe access, the `OnInjection` kick-off) share the single
attempt. -/
theorem construction_attempted_at_most_once (dm : Bool)
    (tr : LazyCreationTrigger) (sp : String → Bool) (evs : List Event)
    (s : SurrogateState) (hs : runEvents dm tr sp evs = s) :
    s.attempts ≤ 1 ∧
    (s.started = true →
      getOrCreateValueAsync s = (s.attempts, s) ∧
      ∀ e : Event, (stepEvent dm tr sp s e).attempts = s.attempts) := by
  subst hs
  have h := inv_runEvents dm tr sp evs
  constructor
  · cases hst : (runEvents dm tr sp evs).started
    · simp [h.attempts_of_not_started hst]
    · simp [h.attempts_of_started hst]
  · intro hstart
    constructor
    · simp [getOrCreateValueAsync, hstart]
    · intro e
      cases e with
      | load =>
          simp only [stepEvent]
          split
          · rw [getOrCreateValueAsync_snd]
            simp [startConstruction, hstart]
          · rfl
      | access p =>
          simp only [stepEvent]
          rcases proxyGet_snd dm tr sp (runEvents dm tr sp evs) p with hp | hp <;>
            rw [hp] <;> simp [startConstruction, hstart]
      | setProp p v => exact proxySet_attempts dm sp _ p v
      | hasProp p =>
          simp only [stepEvent]
          rw [proxyHas_snd]
      | factoryDone o => exact factorySettles_attempts dm o _
      | destroy => exact destroyStep_attempts _

/-- Witness for C3: a second trigger on a loaded surrogate returns the memoized
attempt and the counter stays at one. -/
theorem construction_attempted_at_most_once_witness :
    (runEvents false .Explicit (fun _ => false) [Event.load]).attempts ≤ 1 ∧
    getOrCreateValueAsync (runEvents false .Explicit (fun _ => false)
        [Event.load]) =
      ((runEvents false .Explicit (fun _ => false) [Event.load]).attempts,
        runEvents false .Explicit (fun _ => false) [Event.load]) :=
  ⟨(construction_attempted_at_most_once false .Explicit (fun _ => false)
      [Event.load] _ rfl).1,
    ((construction_attempted_at_most_once false .Explicit (fun _ => false)
        [Event.load] _ rfl).2 (by decide)).1⟩

/-- C4: destroying a surrogate whose construction has not settled removes the
registration, revokes the proxy, rejects the readiness deferred with the
destroyed-before-ready error (so a pending `whenReady` rejects), makes a second
destroy a no-op, and no later event — in particular the eventual settlement of
the construction factory — can produce a construction result or invoke the
teardown callback. -/
theorem destroy_before_ready_spec (dm : Bool) (tr : LazyCreationTrigger)
    (sp : String → Bool) (evs evs' : List Event) (s : SurrogateState)
    (hs : runEvents dm tr sp evs = s) (hreg : s.registered = true)
    (hunsettled : s.deferred.isResolved = false) :
    (destroyStep s).registered = false ∧
    (destroyStep s).revoked = true ∧
    (destroyStep s).deferred.settled = some (.error destroyedBeforeReadyError) ∧
    destroyStep (destroyStep s) = destroyStep s ∧
    (runFrom dm tr sp (destroyStep s) evs').resultsProduced = 0 ∧
    (runFrom dm tr sp (destroyStep s) evs').teardownCalls = 0 := by
  subst hs
  have h := inv_runEvents dm tr sp evs
  have hsettled : (runEvents dm tr sp evs).deferred.settled = none := by
    have hc := h.resolved_eq_settled
    rw [hunsettled] at hc
    cases hx : (runEvents dm tr sp evs).deferred.settled with
    | none => rfl
    | some x => rw [hx] at hc; simp at hc
  have hres0 : (runEvents dm tr sp evs).resultsProduced = 0 := by
    by_contra hr
    rcases h.results_of_ok hr with ⟨r, hrr⟩
    rw [hsettled] at hrr
    exact absurd hrr (by simp)
  have hteard0 := h.teardown_of_registered hreg
  have hd : destroyStep (runEvents dm tr sp evs) =
      { runEvents dm tr sp evs with
        registered := false
        revoked := true
        deferred := (runEvents dm tr sp evs).deferred.reject
          destroyedBeforeReadyError } := by
    simp [destroyStep, hreg, hunsettled]
  have hflag1 : (destroyStep (runEvents dm tr sp evs)).registered = false := by
    rw [hd]
  have hflag2 : (destroyStep (runEvents dm tr sp evs)).deferred.isResolved = true := by
    rw [hd]; simp [Deferred.reject]
  have hflag3 : (destroyStep (runEvents dm tr sp evs)).deferred.settled =
      some (.error destroyedBeforeReadyError) := by
    rw [hd]; simp [Deferred.reject, hsettled]
  obtain ⟨k1, k2, k3, k4, k5⟩ :=
    frozen_runFrom dm tr sp evs' (.error destroyedBeforeReadyError)
      hflag1 hflag2 hflag3
  refine ⟨hflag1, by rw [hd], hflag3, destroyStep_of_unregistered hflag1, ?_, ?_⟩
  · rw [k5, hd]
    exact hres0
  · rw [k4, hd]
    exact hteard0

/-- Witness for C4: a destroy before the factory settles, followed by a successful
factory settlement, produces no construction result and no teardown call. -/
theorem destroy_before_ready_spec_witness :
    (runFrom false .Explicit (fun _ => false)
        (destroyStep (runEvents false .Explicit (fun _ => false) [Event.load]))
        [Event.factoryDone (.created [("x", 1)])]).resultsProduced = 0 ∧
    (runFrom false .Explicit (fun _ => false)
        (destroyStep (runEvents false .Explicit (fun _ => false) [Event.load]))
        [Event.factoryDone (.created [("x", 1)])]).teardownCalls = 0 :=
  ⟨(destroy_before_ready_spec false .Explicit (fun _ => false) [Event.load]
      [Event.factoryDone (.created [("x", 1)])] _ rfl (by decide)
      (by decide)).2.2.2.2.1,
    (destroy_before_ready_spec false .Explicit (fun _ => false) [Event.load]
      [Event.factoryDone (.created [("x", 1)])] _ rfl (by decide)
      (by decide)).2.2.2.2.2⟩

/-- C5, counterexample: after a failed construction (a state in which construction
never completed successfully), a `get` of an undeclared member throws the stored
construction error, not `ServiceNotReadyError`. -/
theorem unsafe_access_after_failure_rethrows :
    (runEvents false .Explicit (fun _ => false)
        [Event.load, Event.factoryDone (.threw (.Error "boom"))]).phase =
      Phase.settledErr (.Error "boom") ∧
    (proxyGet false .Explicit (fun _ => false)
        (runEvents false .Explicit (fun _ => false)
          [Event.load, Event.factoryDone (.threw (.Error "boom"))]) "x").1 =
      .error (.Error "boom") ∧
    JsError.isServiceNotReady (.Error "boom") = false := by
  decide

/-- C5 (amended): for a member that is neither declared safe nor intercepted
(`ngOnDestroy`, `constructor`), on a live proxy: while construction has not
settled, `get`/`set`/`has` throw `ServiceNotReadyError`; after a failed
construction they rethrow the stored construction failure; after a successful
construction, `get` returns exactly the real instance's value, `set` mutates the
real instance and `has` reports membership on it. -/
theorem unsafe_member_forwarding (dm : Bool) (tr : LazyCreationTrigger)
    (sp : String → Bool) (evs : List Event) (p : String) (v : Nat)
    (s : SurrogateState) (hs : runEvents dm tr sp evs = s) (hsafe : sp p = false)
    (hp1 : p ≠ "ngOnDestroy") (hp2 : p ≠ "constructor")
    (hrev : s.revoked = false) :
    ((s.phase = .notStarted ∨ s.phase = .pending) →
      proxyGet dm tr sp s p =
        (.error (.ServiceNotReadyError (serviceNotReadyMessage dm p)), s) ∧
      proxySet dm sp s p v =
        (.error (.ServiceNotReadyError (serviceNotReadyMessage dm p)), s) ∧
      proxyHas dm sp s p =
        (.error (.ServiceNotReadyError (serviceNotReadyMessage dm p)), s)) ∧
    (∀ e, s.phase = .settledErr e →
      proxyGet dm tr sp s p = (.error e, s) ∧
      proxySet dm sp s p v = (.error e, s) ∧
      proxyHas dm sp s p = (.error e, s)) ∧
    (∀ i, s.getValue = .ready i →
      proxyGet dm tr sp s p = (.ok (.value (instGet i p)), s) ∧
      proxySet dm sp s p v =
        (.ok true, { s with getValue := .ready (instSet i p v) }) ∧
      proxyHas dm sp s p = (.ok (instHas i p), s)) ∧
    (s.phase = .settledOk → ∃ i, s.getValue = .ready i) := by
  subst hs
  have h := inv_runEvents dm tr sp evs
  refine ⟨?_, ?_, ?_, fun hok => (h.getValue_of_ok hok).1⟩
  · intro hp
    have hgv := h.getValue_of_pending hp
    exact ⟨by simp [proxyGet, hrev, hp1, hp2, hsafe, callGetValue, hgv],
      by simp [proxySet, hrev, hp1, hsafe, callGetValue, hgv],
      by simp [proxyHas, hrev, hp1, hsafe, callGetValue, hgv]⟩
  · intro e he
    have hgv := (h.getValue_of_err e he).1
    exact ⟨by simp [proxyGet, hrev, hp1, hp2, hsafe, callGetValue, hgv],
      by simp [proxySet, hrev, hp1, hsafe, callGetValue, hgv],
      by simp [proxyHas, hrev, hp1, hsafe, callGetValue, hgv]⟩
  · intro i hgv
    exact ⟨by simp [proxyGet, hrev, hp1, hp2, hsafe, callGetValue, hgv],
      by simp [proxySet, hrev, hp1, hsafe, callGetValue, hgv],
      by simp [proxyHas, hrev, hp1, hsafe, callGetValue, hgv]⟩

/-- Witness for C5 (amended): after a successful construction, reading an unsafe
property forwards to the real instance. -/
theorem unsafe_member_forwarding_witness :
    proxyGet false .Explicit (fun _ => false)
        (runEvents false .Explicit (fun _ => false)
          [Event.load, Event.factoryDone (.created [("x", 5)])]) "x" =
      (.ok (.value (instGet [("x", 5)] "x")),
        runEvents false .Explicit (fun _ => false)
          [Event.load, Event.factoryDone (.created [("x", 5)])]) :=
  ((unsafe_member_forwarding false .Explicit (fun _ => false)
      [Event.load, Event.factoryDone (.created [("x", 5)])] "x" 0 _ rfl rfl
      (by decide) (by decide) (by decide)).2.2.1 [("x", 5)] (by decide)).1

/-- C6: on a live proxy, every structural trap — own-key enumeration, property
descriptor read/definition, deletion, prototype read/mutation, extensibility
check/prevention — throws `OperationNotSupportedError` regardless of readiness,
and writing a declared-safe member also throws `OperationNotSupportedError`. -/
theorem structural_and_safe_write_not_supported (dm : Bool)
    (sp : String → Bool) (s : SurrogateState) (op : StructuralOp) (p : String)
    (v : Nat) (hrev : s.revoked = false) :
    proxyStructural s op =
      .error (.OperationNotSupportedError (notSupportedMessage op.opName)) ∧
    (sp p = true →
      ∃ m, (proxySet dm sp s p v).1 = .error (.OperationNotSupportedError m)) := by
  constructor
  · simp [proxyStructural, hrev]
  · intro hp
    by_cases hd : p = "ngOnDestroy"
    · exact ⟨"ngOnDestroy" ++ " cannot be edited", by simp [proxySet, hrev, hd]⟩
    · exact ⟨"Properties marked as safe properties cannot be edited",
        by simp [proxySet, hrev, hd, hp]⟩

/-- Witness for C6: `ownKeys` on a fresh surrogate and a write to a safe member
both fail with `OperationNotSupportedError`. -/
theorem structural_and_safe_write_not_supported_witness :
    proxyStructural (initState .Explicit) .ownKeys =
      .error (.OperationNotSupportedError
        (notSupportedMessage StructuralOp.ownKeys.opName)) ∧
    ∃ m, (proxySet false (fun q => q == "safeP") (initState .Explicit)
        "safeP" 1).1 = .error (.OperationNotSupportedError m) :=
  ⟨(structural_and_safe_write_not_supported false (fun q => q == "safeP")
      (initState .Explicit) .ownKeys "safeP" 1 (by decide)).1,
    (structural_and_safe_write_not_supported false (fun q => q == "safeP")
      (initState .Explicit) .ownKeys "safeP" 1 (by decide)).2 (by decide)⟩

/-- C7: with the `Explicit` trigger, as long as `load` is never called (and the
surrogate not destroyed), no construction attempt starts, `isReady` stays false,
the readiness deferred stays unsettled, and reading a declared-safe member
returns a wrapper chained on the unsettled readiness deferred without starting
construction or changing state. -/
theorem explicit_trigger_requires_load (dm : Bool) (sp : String → Bool)
    (evs : List Event) (p : String) (hload : Event.load ∉ evs)
    (hdes : Event.destroy ∉ evs) (hp : sp p = true) (h1 : p ≠ "ngOnDestroy")
    (h2 : p ≠ "constructor") :
    runEvents dm .Explicit sp evs = initState .Explicit ∧
    (runEvents dm .Explicit sp evs).started = false ∧
    (runEvents dm .Explicit sp evs).attempts = 0 ∧
    loaderIsReady (some (runEvents dm .Explicit sp evs)) = false ∧
    (runEvents dm .Explicit sp evs).deferred.settled = none ∧
    proxyGet dm .Explicit sp (runEvents dm .Explicit sp evs) p =
      (.ok (.safeWrapper .deferredChain), runEvents dm .Explicit sp evs) := by
  have hrun : runEvents dm .Explicit sp evs = initState .Explicit :=
    runEvents_explicit_inert dm sp evs
      (fun e he => ⟨fun hh => hload (hh ▸ he), fun hh => hdes (hh ▸ he)⟩)
  rw [hrun, initState_explicit]
  refine ⟨rfl, rfl, rfl, rfl, rfl, ?_⟩
  simp [proxyGet, h1, h2, hp, getValueAsync]

/-- Witness for C7: safe access and `has` checks alone never start construction. -/
theorem explicit_trigger_requires_load_witness :
    proxyGet false .Explicit (fun q => q == "safeP")
        (runEvents false .Explicit (fun q => q == "safeP")
          [Event.access "safeP", Event.hasProp "safeP", Event.access "other"])
        "safeP" =
      (.ok (.safeWrapper .deferredChain),
        runEvents false .Explicit (fun q => q == "safeP")
          [Event.access "safeP", Event.hasProp "safeP", Event.access "other"]) :=
  (explicit_trigger_requires_load false (fun q => q == "safeP")
    [Event.access "safeP", Event.hasProp "safeP", Event.access "other"] "safeP"
    (by decide) (by decide) (by decide) (by decide) (by decide)).2.2.2.2.2

/-- C8: the construction closure of `differentialLazyFactory` evaluates the
determinant function exactly once, selects the closure registered for the
determinant, falls back to the optional fallback closure, and with no fallback
fails with `UnexpectedDeterminantError` carrying the stringified determinant. -/
theorem differential_selection_spec {σ α : Type} (determine : σ → String × σ)
    (fs : List (String × α)) (fb : Option α) (st : σ) :
    (differentialFactoryFn determine fs fb st).2 = (determine st).2 ∧
    (∀ f, mapGet fs (determine st).1 = some f →
      (differentialFactoryFn determine fs fb st).1 = .ok f) ∧
    (mapGet fs (determine st).1 = none → ∀ g, fb = some g →
      (differentialFactoryFn determine fs fb st).1 = .ok g) ∧
    (mapGet fs (determine st).1 = none → fb = none →
      (differentialFactoryFn determine fs fb st).1 =
        .error (.UnexpectedDeterminantError
          ("Got determinant \"" ++ (determine st).1 ++
            "\" which has not been registered"))) := by
  refine ⟨?_, ?_, ?_, ?_⟩
  · simp [differentialFactoryFn]
  · intro f hf
    simp [differentialFactoryFn, selectImplementation, hf]
  · intro hnone g hg
    simp [differentialFactoryFn, selectImplementation, hnone, hg]
  · intro hnone hfb
    simp [differentialFactoryFn, selectImplementation, hnone, hfb]

/-- Witness for C8: factories for `A` and `B`, no fallback, determinant `C`:
the construction fails with `UnexpectedDeterminantError` carrying `C`, and the
determinant function ran exactly once. -/
theorem differential_selection_spec_witness :
    (differentialFactoryFn (fun n : Nat => ("C", n + 1)) [("A", 1), ("B", 2)]
        none 0).1 =
      .error (.UnexpectedDeterminantError
        ("Got determinant \"" ++ "C" ++ "\" which has not been registered")) ∧
    (differentialFactoryFn (fun n : Nat => ("C", n + 1)) [("A", 1), ("B", 2)]
        none 0).2 = 1 :=
  ⟨(differential_selection_spec (fun n : Nat => ("C", n + 1)) [("A", 1), ("B", 2)]
      none 0).2.2.2 (by decide) rfl,
    (differential_selection_spec (fun n : Nat => ("C", n + 1)) [("A", 1), ("B", 2)]
      none 0).1⟩

/-- C9: after the first destroy of a registered surrogate, the proxy is revoked,
so every operation on the surrogate handle — including reading a declared-safe
member, reading `ngOnDestroy`, `set`, `has` and every structural trap — throws
the revoked-proxy `TypeError`, while the loader-held destroy stays a silent
no-op. -/
theorem revoked_after_destroy (dm : Bool) (tr : LazyCreationTrigger)
    (sp : String → Bool) (s : SurrogateState) (p : String) (v : Nat)
    (op : StructuralOp) (hreg : s.registered = true) :
    (destroyStep s).revoked = true ∧
    (proxyGet dm tr sp (destroyStep s) p).1 = .error (revokedProxyError "get") ∧
    (proxySet dm sp (destroyStep s) p v).1 = .error (revokedProxyError "set") ∧
    (proxyHas dm sp (destroyStep s) p).1 = .error (revokedProxyError "has") ∧
    proxyStructural (destroyStep s) op = .error (revokedProxyError op.opName) ∧
    destroyStep (destroyStep s) = destroyStep s := by
  obtain ⟨hunreg, hrev⟩ := destroyStep_flags hreg
  exact ⟨hrev, by simp [proxyGet, hrev], by simp [proxySet, hrev],
    by simp [proxyHas, hrev], by simp [proxyStructural, hrev],
    destroyStep_of_unregistered hunreg⟩

/-- Witness for C9: after destroying a fresh surrogate, even the `ngOnDestroy`
read throws the revoked-proxy `TypeError` and a second destroy is a no-op. -/
theorem revoked_after_destroy_witness :
    (proxyGet false .Explicit (fun _ => false)
        (destroyStep (initState .Explicit)) "ngOnDestroy").1 =
      .error (revokedProxyError "get") ∧
    destroyStep (destroyStep (initState .Explicit)) =
      destroyStep (initState .Explicit) :=
  ⟨(revoked_after_destroy false .Explicit (fun _ => false) (initState .Explicit)
      "ngOnDestroy" 0 .ownKeys (by decide)).2.1,
    (revoked_after_destroy false .Explicit (fun _ => false) (initState .Explicit)
      "ngOnDestroy" 0 .ownKeys (by decide)).2.2.2.2.2⟩

/-- C10: destroying a surrogate whose construction already failed is safe: the
deferred reports `isResolved` but holds no stored value (the `Deferred` stores a
value only when its first settlement is a resolve), so the destroy path skips the
teardown callback via optional chaining and completes, leaving only the
registry removal and proxy revocation. -/
theorem destroy_after_failure_no_teardown (dm : Bool)
    (tr : LazyCreationTrigger) (sp : String → Bool) (evs : List Event)
    (e : JsError) (s : SurrogateState) (hs : runEvents dm tr sp evs = s)
    (hreg : s.registered = true)
    (hfail : s.deferred.settled = some (.error e)) :
    s.deferred.isResolved = true ∧
    s.deferred.value = none ∧
    s.teardownCalls = 0 ∧
    destroyStep s = { s with registered := false, revoked := true } ∧
    (destroyStep s).teardownCalls = 0 ∧
    (∀ v : ConstructionResult,
      ((({} : Deferred ConstructionResult).reject e).resolve v).value = none) := by
  subst hs
  have h := inv_runEvents dm tr sp evs
  have hres : (runEvents dm tr sp evs).deferred.isResolved = true := by
    rw [h.resolved_eq_settled, hfail]
    rfl
  have hval : (runEvents dm tr sp evs).deferred.value = none :=
    h.value_of_error e hfail
  have hteard0 := h.teardown_of_registered hreg
  have hd : destroyStep (runEvents dm tr sp evs) =
      { runEvents dm tr sp evs with registered := false, revoked := true } := by
    simp [destroyStep, hreg, hres, hval]
  refine ⟨hres, hval, hteard0, hd, by rw [hd]; exact hteard0, ?_⟩
  intro v
  simp [Deferred.reject, Deferred.resolve]

/-- Witness for C10: destroying after a concrete failed construction invokes no
teardown. -/
theorem destroy_after_failure_no_teardown_witness :
    (destroyStep (runEvents false .Explicit (fun _ => false)
        [Event.load, Event.factoryDone (.threw (.Error "boom"))])).teardownCalls =
      0 :=
  (destroy_after_failure_no_teardown false .Explicit (fun _ => false)
    [Event.load, Event.factoryDone (.threw (.Error "boom"))] (.Error "boom") _
    rfl (by decide) (by decide)).2.2.2.2.1
